import Mathlib

/-!
Verification of the jcmd command-tree engine (src/jcmd.py) against its
natural-language specification.

The development shallowly embeds the relevant parts of `jcmd.py`:
the `JNode` command-tree type, the loader (`JNode.__init__` via the
`json.loads` object hook), the line parser (`JCmd._parseline` on top of
`shlex.split`), the completion engine (`JCmd._complete_line`,
`JCmd._next_word`, `JCmd._next_data`, `JCmd.complete_help`), the argument
resolver (`JCmd.update_args`, `JCmd.check_range`, `JCmd.check_enum`), the
shell-template substitution (`JCmd.format`) and the dispatcher
(`JCmd.onecmd`).

Python exceptions are modelled with `Except PyErr`; an `Except.error`
escaping a modelled function corresponds to an uncaught Python exception.
External side effects (subprocesses, `exec`, nested sub-mode loops) are
modelled as an `Effect` trace: the dispatcher records which action it
invokes and with what payload; the outcome of the external action itself
(for instance a subprocess exit status) is outside the model.
-/

/-- Python exception values raised by the embedded code.  The string
payloads carry the positional arguments of the Python exception
constructor (already rendered to text). -/
inductive PyErr where
  | keyError (k : String)
  | valueError (parts : List String)
  | typeError (parts : List String)
  | attributeError (msg : String)
  | indexError
deriving Repr, DecidableEq

/-- Values living in the command tree.  `str` and `vlist` model JSON
strings and arrays of strings (the only array shape the engine's trees
use: shell template lists and enum lists); `node` models a `JNode`: a
dict (association list in insertion order) together with the attributes
`JNode.__init__` sets on it (`__doc__`, `eoc`, `shell`, `func`,
`method`, `subtree`, the optional `complete` hook, and `args`). -/
inductive JVal where
  | str (s : String)
  | vlist (l : List String)
  | node (dict : List (String × JVal)) (doc : String) (eoc : Bool)
      (shell : Option JVal) (func : Option JVal) (method : Option JVal)
      (subtree : Option JVal) (complete : Option JVal)
      (args : List (String × JVal))
deriving Repr

/-- Raw nested description fed to the loader, as produced by
`json.loads` before the object hook runs: strings, arrays of strings,
and objects with insertion-ordered keys. -/
inductive RawJson where
  | str (s : String)
  | arr (l : List String)
  | obj (kvs : List (String × RawJson))
deriving Repr

/-- The reserved names excluded from completion candidates:
`COMPLETE_IGNORES = set([EXEC_SHELL, BRIEF_HELP, EOF])`. -/
def COMPLETE_IGNORES : List String := ["!", "?", "EOF"]

/-- Candidate set returned by the completion engine.  `cands` is the
normal list of strings; `raw` models the `return cur_node` path of
`complete_help` that hands a non-dict tree value straight back;
`pynone` models `_next_data` falling off its end and returning `None`. -/
inductive Completion where
  | cands (cs : List String)
  | raw (v : JVal)
  | pynone
deriving Repr

/-- Actions the dispatcher can invoke, recorded as an effect trace.
The external outcome of each action (subprocess exit status, the body of
an `exec`-ed snippet, a nested sub-mode loop) is not modelled. -/
inductive Effect where
  | shellRun (cmdStr : String)
  | funcExec (snippet : JVal) (args : List (String × JVal))
  | methodCall (name : String) (args : List (String × JVal))
  | subtreeEnter (file : JVal)
deriving Repr

/-- Per-instance interpreter state observed by `onecmd`: the command
tree and the session-level `end` flag. -/
structure JCmdState where
  cmdtree : JVal
  endFlag : Bool

/-- Result of one `onecmd` dispatch cycle: the value returned to the
read loop (`stop`), the state afterwards, the lines written to stdout,
and the trace of invoked actions. -/
structure OneCmdResult where
  stop : Bool
  state : JCmdState
  output : List String
  effects : List Effect

/- ### Generic Python-semantics helpers -/

/-- Characters `str.strip()` removes (ASCII whitespace). -/
def pySpace (c : Char) : Bool :=
  c == ' ' || c == '\t' || c == '\n' || c == '\r' || c == '\x0b' || c == '\x0c'

/-- Python `str.strip()`. -/
def pyStrip (s : String) : String :=
  (((s.toList.dropWhile pySpace).reverse.dropWhile pySpace).reverse).asString

/-- Whether one string starts with another (Python `str.startswith`). -/
def charsStartWith : List Char → List Char → Bool
  | _, [] => true
  | [], _ :: _ => false
  | a :: as, b :: bs => a == b && charsStartWith as bs

/-- Python `s.startswith(p)`. -/
def strStartsWith (s p : String) : Bool :=
  charsStartWith s.toList p.toList

/-- Join a list of strings with a separator (Python `sep.join(xs)`). -/
def joinSep (sep : String) : List String → String
  | [] => ""
  | [x] => x
  | x :: rest => x ++ sep ++ joinSep sep rest

/-- Python `s.split(sep)` for a one-character separator: keeps empty
segments and yields a single segment for the empty string. -/
def splitCharAux (sep : Char) : List Char → List Char → List String
  | [], acc => [acc.reverse.asString]
  | c :: rest, acc =>
    if c == sep then acc.reverse.asString :: splitCharAux sep rest []
    else splitCharAux sep rest (c :: acc)

/-- Python `s.split(sep)` for a one-character separator. -/
def splitOnChar (s : String) (sep : Char) : List String :=
  splitCharAux sep s.toList []

/-- First index of a character in a string, `-1` when absent
(Python `str.find` for a one-character needle). -/
def charIdx : List Char → Char → Int
  | [], _ => -1
  | c :: rest, ch =>
    if c == ch then 0
    else
      let r := charIdx rest ch
      if r < 0 then -1 else r + 1

/-- Python slice `s[:e]` for a non-negative bound. -/
def strSlice (s : String) (e : Int) : String :=
  (s.toList.take e.toNat).asString

/-- Decimal digits of a Python `int()` literal. -/
def parseDigits : List Char → Option Nat
  | [] => none
  | cs =>
    if cs.all (fun c => c.isDigit) then
      some (cs.foldl (fun n c => n * 10 + (c.toNat - '0'.toNat)) 0)
    else none

/-- Python `int(s)` on a string: surrounding whitespace and an optional
sign are accepted, anything else raises `ValueError`. -/
def pyIntStr (s : String) : Except PyErr Int :=
  let bad : Except PyErr Int :=
    .error (.valueError ["invalid literal for int() with base 10: '" ++ s ++ "'"])
  match (pyStrip s).toList with
  | '-' :: rest =>
    match parseDigits rest with
    | some n => .ok (-(n : Int))
    | none => bad
  | '+' :: rest =>
    match parseDigits rest with
    | some n => .ok (n : Int)
    | none => bad
  | cs =>
    match parseDigits cs with
    | some n => .ok (n : Int)
    | none => bad

/-- Python truthiness of a tree value: non-empty string, non-empty
list, non-empty dict. -/
def pyTruthy : JVal → Bool
  | .str s => !(s == "")
  | .vlist l => !l.isEmpty
  | .node d _ _ _ _ _ _ _ _ => !d.isEmpty

/-- Truthiness of an optional attribute (`None` is falsy). -/
def optTruthy : Option JVal → Bool
  | some v => pyTruthy v
  | none => false

/- ### Insertion-ordered dict operations -/

/-- Dict lookup (`d[k]` / `d.get(k)`): first binding of the key. -/
def dictLookup (d : List (String × JVal)) (k : String) : Option JVal :=
  match d with
  | [] => none
  | (k2, v) :: rest => if k2 == k then some v else dictLookup rest k

/-- Dict assignment `d[k] = v`: replaces in place, else appends
(Python's insertion-order semantics). -/
def dictSet (d : List (String × JVal)) (k : String) (v : JVal) :
    List (String × JVal) :=
  match d with
  | [] => [(k, v)]
  | (k2, v2) :: rest =>
    if k2 == k then (k2, v) :: rest else (k2, v2) :: dictSet rest k v

/-- Dict deletion `del d[k]`. -/
def dictDel (d : List (String × JVal)) (k : String) : List (String × JVal) :=
  d.filter (fun p => !(p.1 == k))

/-- Python `dict.update`: existing keys are overwritten in place, new
keys are appended in iteration order. -/
def dictUpdate (d new : List (String × JVal)) : List (String × JVal) :=
  new.foldl (fun acc p => dictSet acc p.1 p.2) d

/- ### Rendering values back to text (Python str()/repr()) -/

/-- Python `repr` of a string. -/
def pyReprStr (s : String) : String := "'" ++ s ++ "'"

mutual

/-- Python `str()` of a tree value (used when substituting a non-string
argument value into a shell template). -/
def pyValToStr : JVal → String
  | .str s => s
  | .vlist l => "[" ++ joinSep ", " (l.map pyReprStr) ++ "]"
  | .node d _ _ _ _ _ _ _ _ => "\x7b" ++ joinSep ", " (pyPairs d) ++ "\x7d"

/-- Rendered `'key': repr(value)` pairs of a dict. -/
def pyPairs : List (String × JVal) → List String
  | [] => []
  | (k, v) :: rest =>
    (pyReprStr k ++ ": " ++
      (match v with
       | .str s => pyReprStr s
       | w => pyValToStr w)) :: pyPairs rest

end

/-- The raw text of a value as it appears inside an exception tuple
payload. -/
def pyRawStr : JVal → String
  | .str s => s
  | v => pyValToStr v

/-- Python `str()` of an exception's argument tuple: a single argument
renders bare, several render as a quoted tuple. -/
def renderTuple (l : List String) : String :=
  match l with
  | [s] => s
  | _ => "(" ++ joinSep ", " (l.map pyReprStr) ++ ")"

/-- The `%s` rendering of an exception used by `onecmd`'s
`except BaseException` reporting branch. -/
def renderFailed : PyErr → String
  | .keyError k => pyReprStr k
  | .valueError l => renderTuple l
  | .typeError l => renderTuple l
  | .attributeError m => m
  | .indexError => "list index out of range"

/- ### shlex.split (posix mode, whitespace_split) -/

/-- Lexer states of `shlex` in posix mode: between tokens, inside a
plain token, inside single/double quotes, and after an escape character
in a plain token or inside double quotes. -/
inductive ShState where
  | ws | tok | sq | dq | escTok | escDq

/-- Characters `shlex` treats as token separators. -/
def shWhitespace (c : Char) : Bool :=
  c == ' ' || c == '\t' || c == '\r' || c == '\n'

/-- The state machine of `shlex.split` (posix mode, whitespace split, no
comments): single quotes are fully literal, double quotes let a
backslash escape only a double quote or a backslash, and a backslash
outside quotes takes the next character literally.  An unterminated
quote raises `ValueError('No closing quotation')`, a trailing escape
raises `ValueError('No escaped character')`. -/
def shlexAux : ShState → List Char → Bool → List String → List Char →
    Except PyErr (List String)
  | st, cur, hasTok, acc, [] =>
    match st with
    | .sq => .error (.valueError ["No closing quotation"])
    | .dq => .error (.valueError ["No closing quotation"])
    | .escTok => .error (.valueError ["No escaped character"])
    | .escDq => .error (.valueError ["No escaped character"])
    | _ => .ok (if hasTok then acc ++ [cur.asString] else acc)
  | .ws, _, _, acc, c :: rest =>
    if shWhitespace c then shlexAux .ws [] false acc rest
    else if c == '\'' then shlexAux .sq [] true acc rest
    else if c == '"' then shlexAux .dq [] true acc rest
    else if c == '\\' then shlexAux .escTok [] true acc rest
    else shlexAux .tok [c] true acc rest
  | .tok, cur, _, acc, c :: rest =>
    if shWhitespace c then shlexAux .ws [] false (acc ++ [cur.asString]) rest
    else if c == '\'' then shlexAux .sq cur true acc rest
    else if c == '"' then shlexAux .dq cur true acc rest
    else if c == '\\' then shlexAux .escTok cur true acc rest
    else shlexAux .tok (cur ++ [c]) true acc rest
  | .sq, cur, _, acc, c :: rest =>
    if c == '\'' then shlexAux .tok cur true acc rest
    else shlexAux .sq (cur ++ [c]) true acc rest
  | .dq, cur, _, acc, c :: rest =>
    if c == '"' then shlexAux .tok cur true acc rest
    else if c == '\\' then shlexAux .escDq cur true acc rest
    else shlexAux .dq (cur ++ [c]) true acc rest
  | .escTok, cur, _, acc, c :: rest => shlexAux .tok (cur ++ [c]) true acc rest
  | .escDq, cur, _, acc, c :: rest =>
    if c == '"' || c == '\\' then shlexAux .dq (cur ++ [c]) true acc rest
    else shlexAux .dq (cur ++ ['\\', c]) true acc rest

/-- `shlex.split(line)`. -/
def shlexSplit (s : String) : Except PyErr (List String) :=
  shlexAux .ws [] false [] s.toList

/- ### JCmd._parseline -/

/-- The `key=value` rewriting loop of `_parseline`: every word holding
`=` is split at the first `=`; a comma-separated value becomes a list;
the word is replaced by its key part; assignments land in the `args`
dict in order. -/
def splitArgsAux : List String → List (String × JVal) →
    List String × List (String × JVal)
  | [], acc => ([], acc)
  | w :: ws, acc =>
    let cs := w.toList
    let i := charIdx cs '='
    if i < 0 then
      let (ws2, acc2) := splitArgsAux ws acc
      (w :: ws2, acc2)
    else
      let key := (cs.take i.toNat).asString
      let value := (cs.drop (i.toNat + 1)).asString
      let vl := splitOnChar value ','
      let jv := if vl.length > 1 then JVal.vlist vl else JVal.str value
      let (ws2, acc2) := splitArgsAux ws (dictSet acc key jv)
      (key :: ws2, acc2)

/-- `words[-1]`, raising `IndexError` on an empty list. -/
def lastWordE (ws : List String) : Except PyErr String :=
  match ws.getLast? with
  | some w => .ok w
  | none => .error .indexError

/-- `JCmd._parseline(line, begidx, endidx)`: tokenizes the line up to
`endidx` with `shlex.split`, splits `key=value` words, and marks the
last word incomplete when the cursor range does not cover the whole
line or the line ends in `=` or `,`. -/
def parseline (line : String) (begidx endidx : Int) :
    Except PyErr (List String × String × List (String × JVal)) :=
  let e : Int := if begidx = -1 ∨ endidx = -1 then (line.length : Int) else endidx
  let b : Int := if begidx = -1 ∨ endidx = -1 then (line.length : Int) else begidx
  let line2 := strSlice line e
  match shlexSplit line2 with
  | .error er => .error er
  | .ok ws0 =>
    let (words2, args) := splitArgsAux ws0 []
    let inc0 : Except PyErr String :=
      if b = e then .ok "" else lastWordE words2
    match inc0 with
    | .error er => .error er
    | .ok inc =>
      if line2.toList = [] then .ok (words2, inc, args)
      else if line2.toList.getLast? = some '=' ∨ line2.toList.getLast? = some ',' then
        match lastWordE words2 with
        | .error er => .error er
        | .ok lw => .ok (words2, lw, args)
      else .ok (words2, inc, args)

/- ### JNode construction (loader) -/

/-- The empty `JNode()`: empty dict, default doc, not a leaf, no action
attributes. -/
def emptyNode : JVal :=
  .node [] "no help" false none none none none none []

/-- A plain (un-hooked) Python dict, as passed to `JNode` for the
built-in commands.  Only its dict part is ever read, so it is carried
as a bare node with default attributes. -/
def plainDict (d : List (String × JVal)) : JVal :=
  .node d "no help" false none none none none none []

/-- Normalization of one argument-spec entry
(`JNode.update_args`): a non-dict value `v` becomes `JNode({"help": v})`,
a node is kept as is. -/
def normArg : String × JVal → String × JVal
  | (k, v) =>
    match v with
    | .node _ _ _ _ _ _ _ _ _ => (k, v)
    | .str s => (k, .node [] s false none none none none none [])
    | .vlist l => (k, .node [] (pyValToStr (.vlist l)) false none none none none none [])

/-- `JNode.__init__` on a dict whose values have already been built by
the object hook: consume `help` into the doc string, destructure a
`cmd` mapping into the action attributes (any unrecognized key in it
only sets an attribute that is never read afterwards), set `eoc`, and,
for a leaf, consume and normalize `args`.  A non-dict `cmd` or `args`
value raises `AttributeError` (its `.items()` does not exist). -/
def jnodeInit (d : List (String × JVal)) : Except PyErr JVal :=
  let doc := match dictLookup d "help" with
    | some v => pyRawStr v
    | none => "no help"
  let d1 := dictDel d "help"
  match dictLookup d1 "cmd" with
  | none => .ok (.node d1 doc false none none none none none [])
  | some cmdv =>
    match cmdv with
    | .node cd _ _ _ _ _ _ _ _ =>
      let shellA := dictLookup cd "shell"
      let funcA := dictLookup cd "func"
      let methodA := dictLookup cd "method"
      let subtreeA := dictLookup cd "subtree"
      let complA := dictLookup cd "complete"
      let d2 := dictDel d1 "cmd"
      match dictLookup d2 "args" with
      | none => .ok (.node d2 doc true shellA funcA methodA subtreeA complA [])
      | some av =>
        match av with
        | .node ad _ _ _ _ _ _ _ _ =>
          let d3 := dictDel d2 "args"
          .ok (.node d3 doc true shellA funcA methodA subtreeA complA (ad.map normArg))
        | _ => .error (.attributeError "'str' object has no attribute 'items'")
    | _ => .error (.attributeError "'str' object has no attribute 'items'")

mutual

/-- `json.loads(..., object_hook=JNode)` applied to a raw description:
every object becomes a `JNode`, built bottom-up. -/
def buildJVal : RawJson → Except PyErr JVal
  | .str s => .ok (.str s)
  | .arr l => .ok (.vlist l)
  | .obj kvs =>
    match buildKVs kvs with
    | .error e => .error e
    | .ok kvs2 => jnodeInit kvs2

/-- Builds the values of an object's key list, in order. -/
def buildKVs : List (String × RawJson) → Except PyErr (List (String × JVal))
  | [] => .ok []
  | (k, v) :: rest =>
    match buildJVal v with
    | .error e => .error e
    | .ok v2 =>
      match buildKVs rest with
      | .error e => .error e
      | .ok rest2 => .ok ((k, v2) :: rest2)

end

/-- `JCmd.load(cmddict=desc)`: the built top-level node's dict is merged
into the engine tree's dict with `dict.update`. -/
def loadDict (tree : JVal) (desc : RawJson) : Except PyErr JVal :=
  match buildJVal desc with
  | .error e => .error e
  | .ok built =>
    match tree, built with
    | .node d doc eoc sh f m su c a, .node d2 _ _ _ _ _ _ _ _ =>
      .ok (.node (dictUpdate d d2) doc eoc sh f m su c a)
    | _, _ => .error (.typeError ["update requires a mapping"])

/-- The built-in commands `JCmd.__init__` injects after loading:
`EOF` (aliased `quit`, `exit`), the shell escape `!`, `help`, and the
brief help `?` (aliased `list`). -/
def addBuiltins (t : JVal) : Except PyErr JVal :=
  match jnodeInit [("help", JVal.str "quit (ctrl+d)"),
      ("cmd", plainDict [("method", JVal.str "do_eof")])] with
  | .error e => .error e
  | .ok eofN =>
  match jnodeInit [("help", JVal.str "execute a shell command"),
      ("cmd", plainDict [("shell", JVal.str "\x7b\x7bshell-cmd\x7d\x7d")]),
      ("args", plainDict [("shell-cmd", JVal.str "executable shell command")])] with
  | .error e => .error e
  | .ok bangN =>
  match jnodeInit [("help", JVal.str "show a command help"),
      ("cmd", plainDict [("method", JVal.str "do_help"),
                         ("complete", JVal.str "complete_help")])] with
  | .error e => .error e
  | .ok helpN =>
  match jnodeInit [("help", JVal.str "show all the commands' help briefly"),
      ("cmd", plainDict [("method", JVal.str "do_help_briefly"),
                         ("complete", JVal.str "complete_help")])] with
  | .error e => .error e
  | .ok briefN =>
    match t with
    | .node d doc eoc sh f m su c a =>
      let d1 := dictSet d "EOF" eofN
      let d2 := dictSet d1 "quit" eofN
      let d3 := dictSet d2 "exit" eofN
      let d4 := dictSet d3 "!" bangN
      let d5 := dictSet d4 "help" helpN
      let d6 := dictSet d5 "?" briefN
      let d7 := dictSet d6 "list" briefN
      .ok (.node d7 doc eoc sh f m su c a)
    | _ => .error (.typeError ["not a tree"])

/-- `JCmd.__init__(cmddict=desc)` as far as the command tree is
concerned: start from an empty `JNode`, load the description, then
inject the built-in commands.  (History-file and readline wiring are
external collaborators and not part of the tree.) -/
def jcmdInitTree (desc : RawJson) : Except PyErr JVal :=
  match loadDict emptyNode desc with
  | .error e => .error e
  | .ok t => addBuiltins t

/- ### JNode.find -/

/-- The walking loop of `JNode.find`: one dict lookup per word, with a
running count of consumed words.  A missing key returns the count and
either the deepest node (best match) or a fresh empty node; indexing
into a non-dict child raises `TypeError`, which `find` does not catch. -/
def jfindAux : JVal → List String → Nat → Bool → Except PyErr (Nat × JVal)
  | cnode, [], idx, _ => .ok (idx, cnode)
  | cnode, w :: ws, idx, best =>
    match cnode with
    | .node d _ _ _ _ _ _ _ _ =>
      match dictLookup d w with
      | some v => jfindAux v ws (idx + 1) best
      | none => if best then .ok (idx, cnode) else .ok (idx, emptyNode)
    | _ => .error (.typeError ["string indices must be integers"])

/-- `JNode.find(jnodes, bestmatch)`. -/
def jfind (t : JVal) (words : List String) (best : Bool) :
    Except PyErr (Nat × JVal) :=
  jfindAux t words 0 best

/- ### Argument validation and resolution -/

/-- Python `str.strip('<>')`. -/
def angleChar (c : Char) : Bool := c == '<' || c == '>'

/-- Python `data_range.strip('<>')`. -/
def stripAngles (s : String) : String :=
  (((s.toList.dropWhile angleChar).reverse.dropWhile angleChar).reverse).asString

/-- `int(data)` on an argument value: lists and dicts raise
`TypeError`. -/
def pyIntVal : JVal → Except PyErr Int
  | .str s => pyIntStr s
  | _ => .error (.typeError ["int() argument must be a string"])

/-- `JCmd.check_range(argname, data, data_range)`: strip `<>`, split on
`-`, require exactly two parts, and raise
`ValueError('out of range:', argname, ':', data)` outside the inclusive
bounds.  The evaluation order of the Python comparison is kept: the low
bound and the data convert first, the high bound only if the low test
passes. -/
def checkRange (argname : String) (data : JVal) (rangev : JVal) :
    Except PyErr Unit :=
  match rangev with
  | .str rs =>
    let parts := splitOnChar (stripAngles rs) '-'
    if parts.length ≠ 2 then .error (.typeError ["invalid range type", argname])
    else
      match pyIntStr (parts.headD "") with
      | .error e => .error e
      | .ok lo =>
        match pyIntVal data with
        | .error e => .error e
        | .ok dv =>
          if lo > dv then
            .error (.valueError ["out of range:", argname, ":", pyRawStr data])
          else
            match pyIntStr (parts.getLastD "") with
            | .error e => .error e
            | .ok hi =>
              if dv > hi then
                .error (.valueError ["out of range:", argname, ":", pyRawStr data])
              else .ok ()
  | _ => .error (.attributeError "'dict' object has no attribute 'strip'")

/-- `JCmd.check_enum(argname, data, data_enum)`: the enum must be a
list; membership failure raises
`ValueError('out of value:', argname, ':', data)`. -/
def checkEnum (argname : String) (data : JVal) (enumv : JVal) :
    Except PyErr Unit :=
  match enumv with
  | .vlist l =>
    let mem := match data with
      | .str s => l.contains s
      | _ => false
    if mem then .ok ()
    else .error (.valueError ["out of value:", argname, ":", pyRawStr data])
  | _ => .error (.typeError ["invalid enum type", argname])

/-- `value.get(key)` on an argument spec: a non-dict spec has no `get`
attribute. -/
def nodeGet (v : JVal) (k : String) : Except PyErr (Option JVal) :=
  match v with
  | .node d _ _ _ _ _ _ _ _ => .ok (dictLookup d k)
  | _ => .error (.attributeError "'str' object has no attribute 'get'")

/-- `JCmd.update_args(args, cmd_args)`: for each declared argument, a
supplied value is validated against truthy `range` and `enum` entries
of its spec; an absent one is filled from `default`, and a missing
default raises `KeyError(key)`.  The args dict is threaded through so
defaults accumulate in insertion order. -/
def updateArgs : List (String × JVal) → List (String × JVal) →
    Except PyErr (List (String × JVal))
  | args, [] => .ok args
  | args, (key, value) :: rest =>
    match dictLookup args key with
    | some data =>
      (match nodeGet value "range" with
       | .error e => .error e
       | .ok ro =>
         match (match ro with
                | some rv => if pyTruthy rv then checkRange key data rv else .ok ()
                | none => .ok ()) with
         | .error e => .error e
         | .ok _ =>
           match nodeGet value "enum" with
           | .error e => .error e
           | .ok eo =>
             match (match eo with
                    | some ev => if pyTruthy ev then checkEnum key data ev else .ok ()
                    | none => .ok ()) with
             | .error e => .error e
             | .ok _ => updateArgs args rest)
    | none =>
      match value with
      | .node sd _ _ _ _ _ _ _ _ =>
        (match dictLookup sd "default" with
         | some dv => updateArgs (dictSet args key dv) rest
         | none => .error (.keyError key))
      | _ => .error (.typeError ["string indices must be integers"])

/- ### JCmd.format (shell template substitution) -/

/-- First index of a (non-empty, here always two-character) pattern in
a character list, `-1` when absent (Python `str.find`). -/
def subIdx : List Char → List Char → Int
  | hay, pat =>
    if charsStartWith hay pat then 0
    else
      match hay with
      | [] => -1
      | _ :: t =>
        let r := subIdx t pat
        if r < 0 then -1 else r + 1

/-- Python `s.replace('', rep)`: the replacement is interleaved before
every character and appended at the end. -/
def emptyRepl (rep : List Char) : List Char → List Char
  | [] => []
  | c :: rest => c :: (rep ++ emptyRepl rep rest)

/-- The scanning core of Python `str.replace` for a non-empty pattern:
non-overlapping matches replaced left to right.  The first parameter is
fuel, kept structural so the definition evaluates inside the kernel; it
starts at the character count and every step consumes at least one
character, so the bare-fuel arm (which hands the remainder back
unscanned) is never reached. -/
def replScan (p : Char) (ps : List Char) (rep : List Char) :
    Nat → List Char → List Char
  | _, [] => []
  | 0, l => l
  | fuel + 1, c :: rest =>
    if charsStartWith (c :: rest) (p :: ps) then
      rep ++ replScan p ps rep fuel (rest.drop ps.length)
    else c :: replScan p ps rep fuel rest

/-- Python `updated.replace(pat, rep)` (all occurrences). -/
def pyReplaceAll (s pat rep : List Char) : List Char :=
  match pat with
  | [] => rep ++ emptyRepl rep s
  | p :: ps => replScan p ps rep s.length s

/-- The substitution loop of `JCmd.format`: find the next
double-brace-delimited placeholder in the remaining template, look its
name up in the resolved args (`KeyError` when missing), replace every
occurrence of the full placeholder text in the accumulated result, and
continue after the closing braces.  The first parameter is fuel, kept
structural so the definition evaluates inside the kernel; it starts at
the template's character count and every iteration consumes at least
two characters, so the bare-fuel arm is never reached. -/
def formatAux (args : List (String × JVal)) :
    Nat → List Char → List Char → Except PyErr (List Char)
  | _, updated, [] => .ok updated
  | 0, updated, _ :: _ => .ok updated
  | fuel + 1, updated, c :: rest =>
    let origin := c :: rest
    let front := subIdx origin ['\x7b', '\x7b']
    if front < 0 then .ok updated
    else
      let tl := subIdx origin ['\x7d', '\x7d']
      if tl < 0 then .ok updated
      else
        let key := ((origin.take tl.toNat).drop (front.toNat + 2)).asString
        match dictLookup args key with
        | none => .error (.keyError key)
        | some data =>
          let dataStr := (pyRawStr data).toList
          let pat := (origin.take (tl.toNat + 2)).drop front.toNat
          let updated2 := pyReplaceAll updated pat dataStr
          formatAux args fuel updated2 (origin.drop (tl.toNat + 2))

/-- `JCmd.format(origin, args)`. -/
def formatStr (origin : String) (args : List (String × JVal)) :
    Except PyErr String :=
  match formatAux args origin.length origin.toList origin.toList with
  | .error e => .error e
  | .ok cs => .ok cs.asString

/- ### Completion engine -/

/-- `JCmd._next_word(cur_node, cur_word, ignores, tail)`: the keys of a
dict that extend the current word, are not reserved, and are not in the
ignore set, each suffixed with `tail`, in insertion order. -/
def nextWord : List (String × JVal) → String → List String → String →
    List String
  | [], _, _, _ => []
  | (c, _) :: rest, curWord, ignores, tl =>
    if strStartsWith c curWord ∧ c ∉ COMPLETE_IGNORES ∧ c ∉ ignores then
      (c ++ tl) :: nextWord rest curWord ignores tl
    else nextWord rest curWord ignores tl

/-- `JCmd._next_data(argtree, cur_arg, cur_data)`: value completion for
one argument.  A list value is collapsed to its last element; a spec
tagged `type: path` delegates to the filesystem glob collaborator
`globF`; a non-empty `enum` is prefix-filtered; every failure inside
the try block (missing spec, spec without `get`, `len(None)`) echoes
the current value back.  An empty `enum` falls off the end of the
Python function and returns `None` (`pynone`).  Argument values
produced by the parser are strings or non-empty lists, so the list
collapse never faces an empty list. -/
def nextData (globF : String → List String)
    (argtree : List (String × JVal)) (curArg : String) (curData : JVal) :
    Completion :=
  let cd : String := match curData with
    | .vlist l => l.getLastD ""
    | .str s => s
    | _ => ""
  match dictLookup argtree curArg with
  | none => .cands [cd]
  | some spec =>
    match spec with
    | .node sd _ _ _ _ _ _ _ _ =>
      let argtype := dictLookup sd "type"
      let argenum := dictLookup sd "enum"
      let isPath : Bool := match argtype with
        | some (.str t) => t == "path"
        | _ => false
      if isPath then .cands (globF (cd ++ "*"))
      else
        match argenum with
        | none => .cands [cd]
        | some (.vlist l) =>
          if l.isEmpty then .pynone
          else .cands (l.filter (fun e => strStartsWith e cd))
        | some (.str s) =>
          if s = "" then .pynone
          else .cands ((s.toList.map (fun c => String.mk [c])).filter
            (fun e => strStartsWith e cd))
        | some (.node nd _ _ _ _ _ _ _ _) =>
          if nd.isEmpty then .pynone
          else .cands ((nd.map (fun p => p.1)).filter (fun e => strStartsWith e cd))
    | _ => .cands [cd]

/-- The tree walk of `JCmd.complete_help`: up to the requested number
of words, one dict lookup per word; any failure (missing key or
non-dict node) stops the walk without consuming the failing word.
Returns the node reached and the number of words consumed. -/
def chWalk : JVal → List String → JVal × Nat
  | cur, [] => (cur, 0)
  | cur, w :: ws =>
    match cur with
    | .node d _ _ _ _ _ _ _ _ =>
      match dictLookup d w with
      | some v =>
        let r := chWalk v ws
        (r.1, r.2 + 1)
      | none => (cur, 0)
    | _ => (cur, 0)

/-- `JCmd.complete_help(remainder, incomplete)`: walk the fully-typed
words (all of them, or all but the incomplete last one), then complete
the next level's child names with `help` excluded; a non-dict node is
returned raw. -/
def completeHelp (tree : JVal) (remainder : List String)
    (incomplete : String) : Completion :=
  let count := if incomplete ≠ "" then remainder.length - 1 else remainder.length
  let walked := chWalk tree (remainder.take count)
  let rem2 := remainder.drop walked.2
  match walked.1 with
  | .node d _ _ _ _ _ _ _ _ =>
    (match rem2 with
     | [] => .cands (nextWord d "" ["help"] " ")
     | w :: _ =>
       let nw := nextWord d w ["help"] " "
       if nw = [] then .cands [] else .cands nw)
  | v => .raw v

/-- Result of the word-consuming loop at the head of
`JCmd._complete_line`: the node reached with the unconsumed remainder,
a delegation to a completion hook, or the `return []` taken when a
non-dict value is indexed or a non-string hook name reaches
`getattr`. -/
inductive WalkRes where
  | done (cur : JVal) (rem : List String)
  | hook (c : Completion)
  | abort

/-- The `complete` attribute of a tree value (`AttributeError`, that
is `none`, for every value the constructor did not give one). -/
def jvalComplete : JVal → Option JVal
  | .node _ _ _ _ _ _ _ c _ => c
  | _ => none

/-- The word-consuming loop of `JCmd._complete_line`: stop before the
incomplete last word, stop (keeping the remainder) on a missing key,
delegate entirely to a node's completion hook when one resolves, and
abort on a non-dict lookup or a non-string hook name.  Only the
engine's own hook `complete_help` exists as a method here; any other
string behaves as an unresolved attribute (`AttributeError`, loop
continues), which is also what the source does for names that do not
resolve on the instance. -/
def clWalk (tree : JVal) (incomplete : String) :
    JVal → List String → WalkRes
  | cur, [] => .done cur []
  | cur, w :: ws =>
    if incomplete ≠ "" ∧ ws = [] then .done cur (w :: ws)
    else
      match cur with
      | .node d _ _ _ _ _ _ _ _ =>
        (match dictLookup d w with
         | none => .done cur (w :: ws)
         | some v =>
           match jvalComplete v with
           | none => clWalk tree incomplete v ws
           | some (.str name) =>
             if name = "complete_help" then .hook (completeHelp tree ws incomplete)
             else clWalk tree incomplete v ws
           | some _ => .abort)
      | _ => .abort

/-- The argument-matching loop of `JCmd._complete_line` (leaf only):
walk the unconsumed words; a word that is not a declared argument, or
is declared but has no supplied value, completes argument names from
it; a word equal to the incomplete token switches to value completion;
otherwise the word joins the ignore set.  When every word is processed
the candidates are ALL declared arguments not in the ignore set, each
suffixed `=`. -/
def argScan (globF : String → List String)
    (argsDecl argsMap : List (String × JVal)) (incomplete : String) :
    List String → List String → Completion
  | [], ignores => .cands (nextWord argsDecl "" ignores "=")
  | key :: rest, ignores =>
    if (dictLookup argsDecl key).isNone then
      .cands (nextWord argsDecl key ignores "=")
    else if (dictLookup argsMap key).isNone then
      .cands (nextWord argsDecl key ignores "=")
    else if incomplete = key then
      (match dictLookup argsMap key with
       | some v =>
         if pyTruthy v then nextData globF argsDecl key v
         else nextData globF argsDecl key (.str "")
       | none => .cands [])
    else argScan globF argsDecl argsMap incomplete rest (key :: ignores)

/-- `JCmd._complete_line(words, incomplete, args)`: walk the
fully-typed words; with nothing left over, offer the child names plus
(for a leaf) all argument names; with an incomplete word, try it as a
child-name prefix first; otherwise fall through to argument matching on
a leaf. -/
def completeLine (tree : JVal) (globF : String → List String)
    (words : List String) (incomplete : String)
    (args : List (String × JVal)) : Completion :=
  match clWalk tree incomplete tree words with
  | .hook c => c
  | .abort => .cands []
  | .done cur rem =>
    match cur with
    | .node d _ eoc _ _ _ _ _ argsDecl =>
      if rem = [] then
        .cands (nextWord d "" [] " " ++
          (if eoc then nextWord argsDecl "" [] "=" else []))
      else
        let pre : Option (List String) :=
          if incomplete ≠ "" then
            match rem with
            | [] => none
            | w :: _ =>
              let nw := nextWord d w [] " "
              if nw = [] then none
              else some (nw ++ (if eoc then nextWord argsDecl w [] "=" else []))
          else none
        (match pre with
         | some cs => .cands cs
         | none =>
           if eoc then argScan globF argsDecl args incomplete rem []
           else .cands [])
    | _ => .cands []

/-- `JCmd.complete(text, 0)` up to the point where the candidate list
is computed: parse the line buffer with the cursor range, then run
`_complete_line`. -/
def completionMatches (tree : JVal) (globF : String → List String)
    (line : String) (begidx endidx : Int) : Except PyErr Completion :=
  match parseline line begidx endidx with
  | .error e => .error e
  | .ok (words, inc, args) => .ok (completeLine tree globF words inc args)

/- ### Dispatcher (JCmd.onecmd) -/

/-- `if not isinstance(x, list): x = [x]` for an action payload: a
declared list of templates keeps its elements, anything else becomes a
one-element list. -/
def toPyList : JVal → List JVal
  | .vlist l => l.map JVal.str
  | v => [v]

/-- Which branch of the `func`/`shell`/`method`/`subtree` chain of
`onecmd` fires (Python truthiness, `None` falsy). -/
inductive ActionChoice where
  | funcA (v : JVal)
  | shellA (v : JVal)
  | methodA (v : JVal)
  | subtreeA (v : JVal)
  | noneA

/-- The `if cmd_node.func / elif shell / elif method / elif subtree`
selection of `onecmd`. -/
def pickAction (funcj shj methodj subtreej : Option JVal) : ActionChoice :=
  if optTruthy funcj then
    match funcj with
    | some v => .funcA v
    | none => .noneA
  else if optTruthy shj then
    match shj with
    | some v => .shellA v
    | none => .noneA
  else if optTruthy methodj then
    match methodj with
    | some v => .methodA v
    | none => .noneA
  else if optTruthy subtreej then
    match subtreej with
    | some v => .subtreeA v
    | none => .noneA
  else .noneA

/-- `format(shell, args)` on one template: a non-string template has no
`find` attribute. -/
def formatVal (v : JVal) (args : List (String × JVal)) :
    Except PyErr String :=
  match v with
  | .str s => formatStr s args
  | _ => .error (.attributeError "'dict' object has no attribute 'find'")

/-- Formats every shell template of a declared list in order,
propagating the first error. -/
def formatList (l : List JVal) (args : List (String × JVal)) :
    Except PyErr (List String) :=
  match l with
  | [] => .ok []
  | v :: rest =>
    match formatVal v args with
    | .error e => .error e
    | .ok s =>
      match formatList rest args with
      | .error e => .error e
      | .ok ss => .ok (s :: ss)

/-- The try block of `onecmd` after `self.end = False`: resolve the
arguments, then invoke the selected action.  `exec`-ed snippets, the
help methods' pretty-printed output (terminal-width dependent) and the
nested sub-mode loop are recorded as opaque effects; `do_eof` is the
one method whose body matters to the session (it writes a newline and
sets the `end` flag).  A method name that is not one of the engine's
command methods falls back to `self.default` via `getattr`'s third
argument and reports an unknown command. -/
def onecmdBody (st1 : JCmdState) (line : String)
    (args argsDecl : List (String × JVal))
    (funcj shj methodj subtreej : Option JVal) :
    Except PyErr OneCmdResult :=
  match updateArgs args argsDecl with
  | .error e => .error e
  | .ok args2 =>
    match pickAction funcj shj methodj subtreej with
    | .funcA fv =>
      .ok ⟨false, st1, [], (toPyList fv).map (fun f => Effect.funcExec f args2)⟩
    | .shellA sv =>
      (match formatList (toPyList sv) args2 with
       | .error e => .error e
       | .ok fmts =>
         let cmdStr := joinSep " && " fmts
         .ok ⟨false, st1, ["  shell: " ++ cmdStr ++ "\n"],
           [Effect.shellRun cmdStr]⟩)
    | .methodA mv =>
      (match mv with
       | .str name =>
         if name = "do_eof" then
           if args2.isEmpty then
             .ok ⟨true, { st1 with endFlag := true }, ["\n"],
               [Effect.methodCall "do_eof" []]⟩
           else .error (.typeError ["do_eof() got an unexpected keyword argument"])
         else if name = "do_help" then
           if args2.isEmpty then
             .ok ⟨false, st1, [], [Effect.methodCall "do_help" args2]⟩
           else .error (.typeError ["do_help() got an unexpected keyword argument"])
         else if name = "do_help_briefly" then
           .ok ⟨false, st1, [], [Effect.methodCall "do_help_briefly" args2]⟩
         else
           .ok ⟨false, st1, ["** Unknown cmd: " ++ line ++ "\n"], []⟩
       | _ => .error (.typeError ["attribute name must be string"]))
    | .subtreeA sv =>
      (match sv with
       | .node d _ _ _ _ _ _ _ _ =>
         (match dictLookup d "file" with
          | some fv => .ok ⟨false, st1, [], [Effect.subtreeEnter fv]⟩
          | none => .error (.keyError "file"))
       | _ => .error (.attributeError "'str' object has no attribute 'get'"))
    | .noneA => .ok ⟨false, st1, [], []⟩

/-- `JCmd.onecmd(line)`: a blank line returns the current `end` flag
untouched; otherwise the line is parsed (tokenizer errors propagate —
this call sits outside the try block), the best-match node found, a
non-leaf reported as an unknown command, and a leaf dispatched through
the guarded try block whose `except` clauses turn `AttributeError`,
`KeyError` and any other exception into one reported line each. -/
def onecmd (st : JCmdState) (line : String) : Except PyErr OneCmdResult :=
  if pyStrip line = "" then .ok ⟨st.endFlag, st, [], []⟩
  else
    match parseline line (-1) (-1) with
    | .error e => .error e
    | .ok (words, _inc, args) =>
      match jfind st.cmdtree words true with
      | .error e => .error e
      | .ok (_idx, cmdNode) =>
        match cmdNode with
        | .node _ _ eoc shj funcj methodj subtreej _ argsDecl =>
          if eoc = false then
            .ok ⟨st.endFlag, st, ["** Unknown cmd: " ++ line ++ "\n"], []⟩
          else
            let st1 : JCmdState := { st with endFlag := false }
            (match onecmdBody st1 line args argsDecl funcj shj methodj subtreej with
             | .ok r => .ok r
             | .error (.attributeError m) =>
               .ok ⟨false, st1, ["** No method or func: " ++ m ++ "\n"], []⟩
             | .error (.keyError k) =>
               .ok ⟨false, st1, ["** No argument: '" ++ k ++ "'\n"], []⟩
             | .error e =>
               .ok ⟨false, st1, ["** Failed: " ++ renderFailed e ++ "\n"], []⟩)
        | _ => .error (.attributeError "'str' object has no attribute 'eoc'")

/- ### Concrete scenario trees -/

/-- The specification's running example tree:
the single command `hello` with a shell action and one argument. -/
def helloDesc : RawJson :=
  .obj [("hello", .obj [
    ("help", .str "h"),
    ("cmd", .obj [("shell", .str "echo HELLO \x7b\x7bname\x7d\x7d")]),
    ("args", .obj [("name", .str "hi")])])]

/-- The engine tree after `JCmd(cmddict=helloDesc)`. -/
def helloEngineE : Except PyErr JVal := jcmdInitTree helloDesc

/-- Stand-in for the filesystem glob collaborator of value completion;
the completion paths exercised in this development never consult it. -/
def globNone : String → List String := fun _ => []

/-- A command with three declared arguments in order `a`, `b`, `c`,
used to examine argument-order enforcement in completion. -/
def abcDesc : RawJson :=
  .obj [("cmd1", .obj [
    ("help", .str "d"),
    ("cmd", .obj [("shell", .str "x")]),
    ("args", .obj [("a", .str "ha"), ("b", .str "hb"), ("c", .str "hc")])])]

/-- A description whose `cmd` mapping carries an action tag the engine
does not know. -/
def badTagDesc : RawJson :=
  .obj [("x", .obj [
    ("help", .str "h"),
    ("cmd", .obj [("badtag", .str "v")])])]

/-- An argument spec carrying the range `<10-100>`. -/
def rangeSpec : JVal :=
  .node [("range", JVal.str "<10-100>")] "num doc" false none none none none none []

/-- An argument spec with a default value and no constraints. -/
def defSpec : JVal :=
  .node [("default", JVal.str "x")] "arg doc" false none none none none none []

/-- An argument spec with neither default nor constraints. -/
def bareSpec : JVal :=
  .node [] "arg doc" false none none none none none []

/-- An argument spec whose default `5` lies outside its own declared
range `<10-100>`. -/
def offRangeDefSpec : JVal :=
  .node [("default", JVal.str "5"), ("range", JVal.str "<10-100>")]
    "arg doc" false none none none none none []

/- ### Helper lemmas -/

/-- Rebuilding a string from its character list is the identity. -/
theorem toList_asString (s : String) : s.toList.asString = s := by
  cases s
  rfl

/-- The slice `line[:len(line)]` is the whole line. -/
theorem strSlice_self (s : String) : strSlice s (s.length : Int) = s := by
  unfold strSlice
  rw [show ((s.length : Int)).toNat = s.length from rfl]
  have h3 : s.toList.take s.length = s.toList := by
    have h2 : s.toList.length = s.length := rfl
    rw [← h2, List.take_length]
  rw [h3]
  exact toList_asString s

/-- The index `JNode.find` reports never falls below its starting
count. -/
theorem jfindAux_le : ∀ (ws : List String) (c : JVal) (i : Nat) (b : Bool)
    (n : Nat) (nd : JVal), jfindAux c ws i b = .ok (n, nd) → i ≤ n := by
  intro ws
  induction ws with
  | nil =>
    intro c i b n nd h
    simp [jfindAux] at h
    omega
  | cons w ws ih =>
    intro c i b n nd h
    cases c with
    | str s => simp [jfindAux] at h
    | vlist l => simp [jfindAux] at h
    | node d doc eoc sh f m su cp a =>
      simp only [jfindAux] at h
      cases hl : dictLookup d w with
      | some v =>
        rw [hl] at h
        have := ih v (i + 1) b n nd h
        omega
      | none =>
        rw [hl] at h
        cases b <;> simp at h <;> omega

/-- Walking the prefix `take (n - i)` alone, without best match,
reaches the same node with the same count. -/
theorem jfindAux_take : ∀ (ws : List String) (c : JVal) (i n : Nat) (nd : JVal),
    jfindAux c ws i true = .ok (n, nd) →
    jfindAux c (ws.take (n - i)) i false = .ok (n, nd) := by
  intro ws
  induction ws with
  | nil =>
    intro c i n nd h
    simp [jfindAux] at h ⊢
    exact h
  | cons w ws ih =>
    intro c i n nd h
    cases c with
    | str s => simp [jfindAux] at h
    | vlist l => simp [jfindAux] at h
    | node d doc eoc sh f m su cp a =>
      simp only [jfindAux] at h
      cases hl : dictLookup d w with
      | some v =>
        rw [hl] at h
        have hle := jfindAux_le ws v (i + 1) true n nd h
        have h2 : n - i = (n - (i + 1)) + 1 := by omega
        rw [h2, List.take_succ_cons]
        simp only [jfindAux, hl]
        exact ih v (i + 1) n nd h
      | none =>
        rw [hl] at h
        simp at h
        obtain ⟨h1, h2⟩ := h
        subst h1
        subst h2
        simp [jfindAux]

/- ### Claim theorems -/

/-- Claim C8: for every tree and word sequence, when best-match `find`
consumes `n` words and returns a node, plain `find` on the `n`-word
valid prefix alone returns the same node with the same count — in
particular for sequences whose trailing segment does not exist in the
tree. -/
theorem claim_c8 (t : JVal) (words : List String) (n : Nat) (nd : JVal)
    (h : jfind t words true = .ok (n, nd)) :
    jfind t (words.take n) false = .ok (n, nd) := by
  have h2 := jfindAux_take words t 0 n nd h
  simpa [jfind] using h2

/-- Witness for C8 at a concrete tree and word sequence with an
unknown trailing segment. -/
theorem claim_c8_witness :
    jfind (JVal.node [("a", JVal.node [] "x" false none none none none none [])]
        "r" false none none none none none [])
      (["a", "zz", "q"].take 1) false
    = .ok (1, JVal.node [] "x" false none none none none none []) :=
  claim_c8 _ ["a", "zz", "q"] 1 _ (by rfl)

/-- Claim C10: dispatching a blank or whitespace-only line returns the
current `end` flag with the state untouched, writes nothing and invokes
nothing. -/
theorem claim_c10 (st : JCmdState) (line : String) (h : pyStrip line = "") :
    onecmd st line = .ok ⟨st.endFlag, st, [], []⟩ := by
  simp [onecmd, h]

/-- Witness for C10 on a whitespace-only line. -/
theorem claim_c10_witness :
    onecmd ⟨emptyNode, false⟩ " \t " = .ok ⟨false, ⟨emptyNode, false⟩, [], []⟩ :=
  claim_c10 ⟨emptyNode, false⟩ " \t " (by rfl)

/-- Claim C3: with the example tree loaded, dispatching
`hello name=world` substitutes the resolved value into the shell
template and runs the subprocess command `echo HELLO world`. -/
theorem claim_c3 :
    ((jcmdInitTree helloDesc).bind (fun t => onecmd ⟨t, false⟩ "hello name=world")).map
      (fun r => (r.stop, r.output, r.effects))
    = .ok (false, ["  shell: echo HELLO world\n"], [Effect.shellRun "echo HELLO world"]) := by
  rfl

/-- Claim C4: with range `<10-100>`, resolving 9 or 101 fails with a
range error naming the argument while 10 and 100 succeed — the parsed
bounds are inclusive. -/
theorem claim_c4 :
    updateArgs [("num", JVal.str "9")] [("num", rangeSpec)]
      = .error (.valueError ["out of range:", "num", ":", "9"]) ∧
    updateArgs [("num", JVal.str "101")] [("num", rangeSpec)]
      = .error (.valueError ["out of range:", "num", ":", "101"]) ∧
    updateArgs [("num", JVal.str "10")] [("num", rangeSpec)]
      = .ok [("num", JVal.str "10")] ∧
    updateArgs [("num", JVal.str "100")] [("num", rangeSpec)]
      = .ok [("num", JVal.str "100")] :=
  ⟨rfl, rfl, rfl, rfl⟩

/-- Claim C5: a declared argument absent from the input is filled from
its spec's default; with no default, resolution fails with
`KeyError` naming it — and at the dispatch level the reported line
names the argument and no action is invoked. -/
theorem claim_c5 :
    (∀ (argsIn : List (String × JVal)) (key : String)
        (sd : List (String × JVal)) (dc : String) (eo : Bool)
        (sh f m su cp : Option JVal) (asp : List (String × JVal)) (dv : JVal),
      dictLookup argsIn key = none →
      dictLookup sd "default" = some dv →
      updateArgs argsIn [(key, JVal.node sd dc eo sh f m su cp asp)]
        = .ok (dictSet argsIn key dv)) ∧
    (∀ (argsIn : List (String × JVal)) (key : String)
        (sd : List (String × JVal)) (dc : String) (eo : Bool)
        (sh f m su cp : Option JVal) (asp : List (String × JVal)),
      dictLookup argsIn key = none →
      dictLookup sd "default" = none →
      updateArgs argsIn [(key, JVal.node sd dc eo sh f m su cp asp)]
        = .error (.keyError key)) ∧
    ((jcmdInitTree helloDesc).bind (fun t => onecmd ⟨t, false⟩ "hello")).map
      (fun r => (r.stop, r.output, r.effects))
      = .ok (false, ["** No argument: 'name'\n"], []) := by
  refine ⟨?_, ?_, rfl⟩
  · intro argsIn key sd dc eo sh f m su cp asp dv h1 h2
    simp [updateArgs, h1, h2]
  · intro argsIn key sd dc eo sh f m su cp asp h1 h2
    simp [updateArgs, h1, h2]

/-- Witness for C5: a default is substituted, a missing default raises
`KeyError` for the named argument. -/
theorem claim_c5_witness :
    updateArgs [] [("name", defSpec)] = .ok [("name", JVal.str "x")] ∧
    updateArgs [] [("name", bareSpec)] = .error (.keyError "name") :=
  ⟨claim_c5.1 [] "name" [("default", JVal.str "x")] "arg doc" false
      none none none none none [] (JVal.str "x") rfl rfl,
   claim_c5.2.1 [] "name" [] "arg doc" false none none none none none [] rfl rfl⟩

/-- Claim C9: a substituted default is never validated — for any spec
carrying a default together with a `range` or `enum` entry, resolving
an argument map that omits the argument inserts the default and
succeeds, whatever the default's relation to the constraint, because
the constraint checks run only for supplied arguments. -/
theorem claim_c9 (argsIn : List (String × JVal)) (key : String)
    (sd : List (String × JVal)) (dc : String) (eo : Bool)
    (sh f m su cp : Option JVal) (asp : List (String × JVal)) (dv rv : JVal)
    (habs : dictLookup argsIn key = none)
    (hdef : dictLookup sd "default" = some dv)
    (_hcon : dictLookup sd "range" = some rv ∨ dictLookup sd "enum" = some rv) :
    updateArgs argsIn [(key, JVal.node sd dc eo sh f m su cp asp)]
      = .ok (dictSet argsIn key dv) := by
  simp [updateArgs, habs, hdef]

/-- Witness for C9: the default `5` of a spec whose range is `<10-100>`
is inserted without any range check firing. -/
theorem claim_c9_witness :
    updateArgs [] [("name", offRangeDefSpec)] = .ok [("name", JVal.str "5")] :=
  claim_c9 [] "name" [("default", JVal.str "5"), ("range", JVal.str "<10-100>")]
    "arg doc" false none none none none none [] (JVal.str "5") (JVal.str "<10-100>")
    rfl rfl (Or.inl rfl)

/-- Claim C2 counterexample: a line with an unclosed quote makes
`onecmd` propagate the tokenizer's `ValueError` — no error line is
written and no ordinary return reaches the read loop, contradicting the
claimed unknown-command treatment. -/
theorem claim_c2_counterexample :
    (jcmdInitTree helloDesc).bind (fun t => onecmd ⟨t, false⟩ "hello \"world")
      = .error (.valueError ["No closing quotation"]) := by
  rfl

/-- Claim C2 (amended): for every non-blank line on which the
tokenizer fails, `onecmd` propagates that error unchanged — the parse
happens outside the dispatch try block, so the malformed-quoting error
is never converted into an unknown-command report and reaches the
(handler-less) read loop. -/
theorem claim_c2_amended (st : JCmdState) (line : String) (err : PyErr)
    (hline : pyStrip line ≠ "") (htok : shlexSplit line = .error err) :
    onecmd st line = .error err := by
  have hp : parseline line (-1) (-1) = .error err := by
    simp only [parseline, strSlice_self, htok]
    norm_num
    rw [strSlice_self, htok]
  unfold onecmd
  rw [if_neg hline, hp]

/-- Claim C6 counterexample: building the tree for a description whose
`cmd` mapping carries the unsupported tag `badtag` succeeds — no
malformed-tree failure exists; the node silently becomes a leaf with no
action bound. -/
theorem claim_c6_counterexample :
    buildJVal badTagDesc
      = .ok (JVal.node [("x", JVal.node [] "h" true none none none none none [])]
          "no help" false none none none none none []) ∧
    (∀ e : PyErr, buildJVal badTagDesc ≠ .error e) :=
  ⟨rfl, fun _ h => Except.noConfusion h⟩

/-- Claim C6 (amended): a `cmd` mapping whose single tag is none of the
recognized action or hook keys (and none of the keys node construction
itself consumes) loads without any error: the tag only sets an unread
attribute and the node becomes a leaf with no action. -/
theorem claim_c6_amended (tag v : String)
    (h : tag ∉ (["shell", "func", "method", "subtree", "complete",
                 "help", "cmd", "args"] : List String)) :
    buildJVal (.obj [("x", .obj [("cmd", .obj [(tag, .str v)])])])
      = .ok (JVal.node [("x", JVal.node [] "no help" true none none none none none [])]
          "no help" false none none none none none []) := by
  simp only [List.mem_cons, List.not_mem_nil, or_false, not_or] at h
  obtain ⟨h1, h2, h3, h4, h5, h6, h7, h8⟩ := h
  have b1 : (tag == "shell") = false := beq_eq_false_iff_ne.mpr h1
  have b2 : (tag == "func") = false := beq_eq_false_iff_ne.mpr h2
  have b3 : (tag == "method") = false := beq_eq_false_iff_ne.mpr h3
  have b4 : (tag == "subtree") = false := beq_eq_false_iff_ne.mpr h4
  have b5 : (tag == "complete") = false := beq_eq_false_iff_ne.mpr h5
  have b6 : (tag == "help") = false := beq_eq_false_iff_ne.mpr h6
  have b7 : (tag == "cmd") = false := beq_eq_false_iff_ne.mpr h7
  have hcmdN : jnodeInit [(tag, JVal.str v)]
      = .ok (JVal.node [(tag, JVal.str v)] "no help" false none none none none none []) := by
    unfold jnodeInit
    simp [dictLookup, dictDel, b6, b7]
  have houter : jnodeInit
      [("cmd", JVal.node [(tag, JVal.str v)] "no help" false none none none none none [])]
      = .ok (JVal.node [] "no help" true none none none none none []) := by
    unfold jnodeInit
    simp [dictLookup, dictDel, b1, b2, b3, b4, b5]
  have sInner : buildJVal (.obj [(tag, .str v)]) = jnodeInit [(tag, JVal.str v)] := rfl
  have sCmd : buildJVal (.obj [("cmd", .obj [(tag, .str v)])])
      = .ok (JVal.node [] "no help" true none none none none none []) := by
    have e1 : buildKVs [("cmd", RawJson.obj [(tag, RawJson.str v)])]
        = .ok [("cmd", JVal.node [(tag, JVal.str v)] "no help" false none none none none none [])] := by
      simp only [buildKVs, sInner, hcmdN]
    simp only [buildJVal, e1]
    exact houter
  have eTop : buildKVs [("x", RawJson.obj [("cmd", RawJson.obj [(tag, RawJson.str v)])])]
      = .ok [("x", JVal.node [] "no help" true none none none none none [])] := by
    simp only [buildKVs, sCmd]
  simp only [buildJVal, eTop]
  rfl

/-- Witness for the amended C6 at the concrete tag `badtag`. -/
theorem claim_c6_witness :
    buildJVal (.obj [("x", .obj [("cmd", .obj [("badtag", .str "v")])])])
      = .ok (JVal.node [("x", JVal.node [] "no help" true none none none none none [])]
          "no help" false none none none none none []) :=
  claim_c6_amended "badtag" "v" (by decide)

/-- Claim C7 counterexample: completing `he` at the end of the line
against the engine loaded with the example tree yields two candidates —
the built-in `help` command also matches the prefix — not the single
candidate the claim states. -/
theorem claim_c7_counterexample :
    (jcmdInitTree helloDesc).bind (fun t => completionMatches t globNone "he" 0 2)
      = .ok (.cands ["hello ", "help "]) ∧
    ¬ (["hello ", "help "] = ["hello "]) :=
  ⟨rfl, by decide⟩

/-- Claim C7 (amended): completing the incomplete token `he` at the end
of the line against the engine loaded with the example tree produces
exactly the candidates `hello ` and `hello`'s built-in sibling `help `
(child names suffixed with a space), in tree insertion order. -/
theorem claim_c7_amended :
    (jcmdInitTree helloDesc).bind (fun t => completionMatches t globNone "he" 0 2)
      = .ok (.cands ["hello ", "help "]) :=
  rfl

/-- `_next_word` only consults the ignore set through membership, so
membership-equivalent ignore sets give the same candidates. -/
theorem nextWord_iff : ∀ (d : List (String × JVal)) (w tl : String)
    (ig1 ig2 : List String), (∀ x, x ∈ ig1 ↔ x ∈ ig2) →
    nextWord d w ig1 tl = nextWord d w ig2 tl := by
  intro d w tl
  induction d with
  | nil => intro ig1 ig2 _; rfl
  | cons p rest ih =>
    intro ig1 ig2 h
    obtain ⟨c, v⟩ := p
    simp only [nextWord]
    rw [ih ig1 ig2 h]
    have hc : (strStartsWith c w = true ∧ c ∉ COMPLETE_IGNORES ∧ c ∉ ig1) ↔
        (strStartsWith c w = true ∧ c ∉ COMPLETE_IGNORES ∧ c ∉ ig2) :=
      and_congr_right fun _ => and_congr_right fun _ => not_congr (h c)
    exact if_congr hc rfl rfl

/-- With the empty current word, `_next_word` is exactly a filter of
the declared entries by the reserved and ignore sets, suffixed with the
tail. -/
theorem nextWord_filter : ∀ (d : List (String × JVal)) (ig : List String)
    (tl : String),
    nextWord d "" ig tl =
      (d.filter (fun p => !COMPLETE_IGNORES.contains p.1 && !ig.contains p.1)).map
        (fun p => p.1 ++ tl) := by
  intro d
  induction d with
  | nil => intro ig tl; rfl
  | cons p rest ih =>
    intro ig tl
    obtain ⟨c, v⟩ := p
    have hs : strStartsWith c "" = true := by
      show charsStartWith c.toList [] = true
      cases c.toList <;> rfl
    simp only [nextWord, List.filter_cons, hs, true_and]
    by_cases h1 : c ∈ COMPLETE_IGNORES <;> by_cases h2 : c ∈ ig <;>
      simp [h1, h2, ih, List.elem_eq_mem]

/-- When every remaining word is a declared argument with a supplied
value distinct from the incomplete token, the argument-matching loop
ends by offering every declared argument outside the accumulated ignore
set; any list membership-equivalent to the processed words joined with
the initial ignore set describes that final set. -/
theorem argScan_all (globF : String → List String)
    (specs argsMap : List (String × JVal)) :
    ∀ (ks ig ig2 : List String),
    (∀ k ∈ ks, k ≠ "" ∧ (dictLookup specs k).isSome ∧ (dictLookup argsMap k).isSome) →
    (∀ x, x ∈ ig2 ↔ x ∈ ks ∨ x ∈ ig) →
    argScan globF specs argsMap "" ks ig = .cands (nextWord specs "" ig2 "=") := by
  intro ks
  induction ks with
  | nil =>
    intro ig ig2 _hks hig
    simp only [argScan]
    congr 1
    apply nextWord_iff specs "" "=" ig ig2
    intro x
    rw [hig x]
    simp
  | cons k rest ih =>
    intro ig ig2 hks hig
    obtain ⟨hne, hs1, hs2⟩ := hks k (List.mem_cons_self k rest)
    obtain ⟨v1, hv1⟩ := Option.isSome_iff_exists.mp hs1
    obtain ⟨v2, hv2⟩ := Option.isSome_iff_exists.mp hs2
    have hne2 : ¬("" = k) := fun hh => hne hh.symm
    simp only [argScan, hv1, hv2, Option.isNone_some, Bool.false_eq_true,
      if_false, hne2, ite_false]
    rw [ih (k :: ig) ig2]
    · intro k2 hk2
      exact hks k2 (List.mem_cons_of_mem k hk2)
    · intro x
      rw [hig x]
      simp only [List.mem_cons]
      tauto

/-- Claim C1 (amended): for a leaf with declared arguments, argument
completion after a run of already-supplied arguments offers EVERY
declared argument not yet supplied (suffixed `=`, in declared order),
not only the first unresolved one — arguments need not arrive in
declaration order for later ones to be offered. -/
theorem claim_c1_amended (globF : String → List String) (dc ds : String)
    (specs : List (String × JVal)) (ks : List String)
    (argsMap : List (String × JVal))
    (hks : ∀ k ∈ ks, k ≠ "" ∧ (dictLookup specs k).isSome ∧
      (dictLookup argsMap k).isSome) :
    completeLine
      (JVal.node [("cmd1", JVal.node [] dc true none none none none none specs)]
        ds false none none none none none [])
      globF ("cmd1" :: ks) "" argsMap
    = .cands ((specs.filter
        (fun p => !COMPLETE_IGNORES.contains p.1 && !ks.contains p.1)).map
        (fun p => p.1 ++ "=")) := by
  have hwalk : clWalk
      (JVal.node [("cmd1", JVal.node [] dc true none none none none none specs)]
        ds false none none none none none []) ""
      (JVal.node [("cmd1", JVal.node [] dc true none none none none none specs)]
        ds false none none none none none [])
      ("cmd1" :: ks)
      = WalkRes.done (JVal.node [] dc true none none none none none specs) ks := by
    cases ks <;> rfl
  unfold completeLine
  rw [hwalk]
  cases ks with
  | nil =>
    simp only [ite_true]
    rw [nextWord_filter specs [] "="]
    rfl
  | cons k rest =>
    have hne : ¬(k :: rest = ([] : List String)) := by simp
    have hpre : ¬(("" : String) ≠ "") := fun hh => hh rfl
    simp only [if_neg hne, hpre, ite_false, ite_true]
    rw [argScan_all globF specs argsMap (k :: rest) [] (k :: rest) hks
      (by intro x; simp)]
    rw [nextWord_filter specs (k :: rest) "="]

/-- Witness for the amended C1: three declared arguments `a`, `b`, `c`
with `a` already supplied — completion offers both `b=` and `c=`. -/
theorem claim_c1_witness :
    completeLine
      (JVal.node [("cmd1", JVal.node [] "d" true none none none none none
        [("a", JVal.node [] "ha" false none none none none none []),
         ("b", JVal.node [] "hb" false none none none none none []),
         ("c", JVal.node [] "hc" false none none none none none [])])]
        "r" false none none none none none [])
      globNone ["cmd1", "a"] "" [("a", JVal.str "1")]
    = .cands ["b=", "c="] := by
  have h := claim_c1_amended globNone "d" "r"
    [("a", JVal.node [] "ha" false none none none none none []),
     ("b", JVal.node [] "hb" false none none none none none []),
     ("c", JVal.node [] "hc" false none none none none none [])]
    ["a"] [("a", JVal.str "1")]
    (by
      intro k hk
      simp only [List.mem_singleton] at hk
      subst hk
      exact ⟨by decide, rfl, rfl⟩)
  exact h.trans (by rfl)

/-- Claim C1 counterexample: against the engine loaded with three
declared arguments `a`, `b`, `c`, completing after `cmd1 a=1 ` yields
the two candidates `b=` and `c=` — not the sole candidate `b=` the
claim requires, so argument `c` (position 3) is offered while argument
`b` (position 2) is still absent. -/
theorem claim_c1_counterexample :
    (jcmdInitTree abcDesc).bind
        (fun t => completionMatches t globNone "cmd1 a=1 " 9 9)
      = .ok (.cands ["b=", "c="]) ∧
    ¬ (["b=", "c="] = ["b="]) :=
  ⟨rfl, by decide⟩

/-- Witness for the amended C2 at a concrete unclosed-quote line. -/
theorem claim_c2_witness :
    onecmd ⟨emptyNode, false⟩ "a \"b" = .error (.valueError ["No closing quotation"]) :=
  claim_c2_amended ⟨emptyNode, false⟩ "a \"b" (.valueError ["No closing quotation"])
    (by decide) (by rfl)
